import Mathlib

/-!
Shallow embedding of the echo-truth backend's classification logic.

Sources embedded (Python):
- backend/app/services/decision_service.py : classify, _validate_result,
  _heuristic_classify
- backend/app/services/ai_service.py : classify_with_llm, _parse_llm_response
- backend/app/services/audio_service.py : decode_base64, the silence-ratio
  computation inside extract_features

Python floats are modelled as rationals (ℚ); every comparison and constant
used by the embedded code is exactly representable, and the only float sums
that occur (subsets of 0.4 + 0.3 + 0.2 against the 0.5 threshold) give the
same comparison results in IEEE doubles as in ℚ, so the embedding is
outcome-faithful.  Strings are Lean strings operated on through their
character lists so that all definitions evaluate by kernel reduction.
-/

namespace EchoTruth

/-! ### Python string primitives -/

/-- The opening-brace character (code point 123). -/
def lb : Char := Char.ofNat 123

/-- The closing-brace character (code point 125). -/
def rb : Char := Char.ofNat 125

/-- Whitespace stripped by Python `str.strip()` (ASCII subset; the embedded
inputs never contain non-ASCII whitespace). -/
def isPyWs (c : Char) : Bool :=
  [32, 9, 10, 13, 11, 12].contains c.toNat

/-- Python `str.strip()`. -/
def pyStrip (s : String) : String :=
  String.mk (((s.data.dropWhile isPyWs).reverse.dropWhile isPyWs).reverse)

/-- Python `str.find(c)`: index of the first occurrence, `none` for -1. -/
def pyFind (cs : List Char) (c : Char) : Option Nat :=
  List.findIdx? (fun x => x == c) cs

/-- Python `str.rfind(c)`: index of the last occurrence, `none` for -1. -/
def pyRFind (cs : List Char) (c : Char) : Option Nat :=
  match List.findIdx? (fun x => x == c) cs.reverse with
  | none => none
  | some i => some (cs.length - 1 - i)

/-- Python slicing `s[a:b]` for `0 ≤ a, b` (empty when `b ≤ a`). -/
def pySlice (s : String) (a b : Nat) : String :=
  String.mk ((s.data.drop a).take (b - a))

/-- Python `s[:n]` truncation. -/
def pyTruncate (s : String) (n : Nat) : String :=
  String.mk (s.data.take n)

/-- Substring containment, Python `pat in hay`. -/
def strHasSub (hay pat : String) : Bool :=
  (List.range (hay.data.length + 1)).any
    (fun i => (hay.data.drop i).take pat.data.length == pat.data)

/-- Python `str.upper()` (ASCII; the classification strings involved are
ASCII, where Python and `Char.toUpper` agree). -/
def pyUpper (s : String) : String :=
  String.mk (s.data.map Char.toUpper)

/-- Python `str.replace(" ", "_")`. -/
def pyReplaceSpaceUnderscore (s : String) : String :=
  String.mk (s.data.map (fun c => if c == ' ' then '_' else c))

/-! ### JSON values, as produced by Python `json.loads`

Numbers are exact rationals (JSON number literals are finite decimals, all
representable).  Objects keep their members in source order; Python dicts
collapse duplicate keys with the last occurrence winning, which `jGet`
reproduces.  Deviations from `json.loads`, none reachable from the claims:
the non-standard literals `NaN`/`Infinity` are not accepted, and the
int/float distinction of parsed numbers is not tracked. -/

inductive Json where
  | null : Json
  | bool : Bool → Json
  | num : ℚ → Json
  | str : String → Json
  | arr : List Json → Json
  | obj : List (String × Json) → Json
deriving Inhabited

/-- Python dict lookup on a member list with duplicate keys collapsed to the
last occurrence (`dict(pairs)` semantics). -/
def jGet (kvs : List (String × Json)) (k : String) : Option Json :=
  kvs.reverse.lookup k

/-- JSON whitespace (RFC 8259, as accepted by `json.loads`). -/
def isJsonWs (c : Char) : Bool :=
  [32, 9, 10, 13].contains c.toNat

/-- Drop leading JSON whitespace. -/
def dropJsonWs (cs : List Char) : List Char :=
  cs.dropWhile isJsonWs

/-- Decimal digit test. -/
def isDigitCh (c : Char) : Bool := '0' ≤ c && c ≤ '9'

/-- Split off a maximal run of decimal digits. -/
def spanDigits : List Char → List Char × List Char
  | [] => ([], [])
  | c :: cs =>
    if isDigitCh c then
      let p := spanDigits cs
      (c :: p.1, p.2)
    else ([], c :: cs)

/-- Value of a digit string. -/
def digitsToNat (ds : List Char) : Nat :=
  ds.foldl (fun a c => a * 10 + (c.toNat - 48)) 0

/-- Powers of ten, kept first-order so that terms evaluate by reduction. -/
def qPow10 : Nat → ℚ
  | 0 => 1
  | n + 1 => qPow10 n * 10

/-- `10^e` for a signed exponent. -/
def qTenPow (e : Int) : ℚ :=
  if e < 0 then 1 / qPow10 (-e).toNat else qPow10 e.toNat

/-- Hex digit value, for `\uXXXX` escapes. -/
def hexDigitVal (c : Char) : Option Nat :=
  if '0' ≤ c && c ≤ '9' then some (c.toNat - 48)
  else if 'a' ≤ c && c ≤ 'f' then some (c.toNat - 87)
  else if 'A' ≤ c && c ≤ 'F' then some (c.toNat - 55)
  else none

/-- Single-character JSON string escapes. -/
def jsonEscape (c : Char) : Option Char :=
  match c.toNat with
  | 34 => some c
  | 92 => some c
  | 47 => some c
  | 110 => some (Char.ofNat 10)
  | 116 => some (Char.ofNat 9)
  | 114 => some (Char.ofNat 13)
  | 98 => some (Char.ofNat 8)
  | 102 => some (Char.ofNat 12)
  | _ => none

/-- Parse the body of a JSON string after the opening quote.  Unescaped
control characters are rejected, as in strict `json.loads`. -/
def parseJsonStr (acc : List Char) : List Char → Option (String × List Char)
  | [] => none
  | c :: cs =>
    if c == '"' then some (String.mk acc.reverse, cs)
    else if c == '\\' then
      match cs with
      | [] => none
      | e :: cs2 =>
        if e == 'u' then
          match cs2 with
          | a :: b :: c3 :: d :: cs3 =>
            match hexDigitVal a, hexDigitVal b, hexDigitVal c3, hexDigitVal d with
            | some va, some vb, some vc, some vd =>
              parseJsonStr (Char.ofNat (((va * 16 + vb) * 16 + vc) * 16 + vd) :: acc) cs3
            | _, _, _, _ => none
          | _ => none
        else
          match jsonEscape e with
          | some ch => parseJsonStr (ch :: acc) cs2
          | none => none
    else if c.toNat < 32 then none
    else parseJsonStr (c :: acc) cs

/-- Parse a JSON number (strict grammar: no leading zeros, a fraction and an
exponent need at least one digit) into an exact rational. -/
def parseJsonNum (cs : List Char) : Option (ℚ × List Char) :=
  let sgn : ℚ × List Char := match cs with
    | c :: r => if c == '-' then (-1, r) else (1, cs)
    | [] => (1, cs)
  let (ds, r1) := spanDigits sgn.2
  if ds.isEmpty then none
  else if ds.length > 1 && ds.headI == '0' then none
  else
    let (fds, r2) : List Char × List Char := match r1 with
      | c :: r => if c == '.' then spanDigits r else ([], r1)
      | [] => ([], r1)
    let hadDot : Bool := match r1 with
      | c :: _ => c == '.'
      | [] => false
    if hadDot && fds.isEmpty then none
    else
      let expPart : Option (Int × List Char) := match r2 with
        | c :: r =>
          if c == 'e' || c == 'E' then
            let se : Int × List Char := match r with
              | c2 :: r2b =>
                if c2 == '+' then (1, r2b)
                else if c2 == '-' then (-1, r2b)
                else (1, r)
              | [] => (1, r)
            let (eds, r3) := spanDigits se.2
            if eds.isEmpty then none else some (se.1 * (digitsToNat eds : Int), r3)
          else some (0, r2)
        | [] => some (0, r2)
      match expPart with
      | none => none
      | some (e, rest) =>
        let mant : ℚ := (digitsToNat (ds ++ fds) : ℚ) / qPow10 fds.length
        some (sgn.1 * mant * qTenPow e, rest)

mutual

/-- Parse one JSON value.  `fuel` only ensures totality; `jsonLoads` supplies
enough fuel that it never runs out on its input. -/
def parseJsonVal : Nat → List Char → Option (Json × List Char)
  | 0, _ => none
  | fuel + 1, cs =>
    match dropJsonWs cs with
    | [] => none
    | c :: r =>
      if c == 'n' then
        match r with
        | 'u' :: 'l' :: 'l' :: r2 => some (.null, r2)
        | _ => none
      else if c == 't' then
        match r with
        | 'r' :: 'u' :: 'e' :: r2 => some (.bool true, r2)
        | _ => none
      else if c == 'f' then
        match r with
        | 'a' :: 'l' :: 's' :: 'e' :: r2 => some (.bool false, r2)
        | _ => none
      else if c == '"' then
        match parseJsonStr [] r with
        | some (s, r2) => some (.str s, r2)
        | none => none
      else if c == '[' then
        match dropJsonWs r with
        | c2 :: r2 =>
          if c2 == ']' then some (.arr [], r2)
          else
            match parseJsonElems fuel (c2 :: r2) with
            | some (es, r3) => some (.arr es, r3)
            | none => none
        | [] => none
      else if c == lb then
        match dropJsonWs r with
        | c2 :: r2 =>
          if c2 == rb then some (.obj [], r2)
          else
            match parseJsonMembers fuel (c2 :: r2) with
            | some (ms, r3) => some (.obj ms, r3)
            | none => none
        | [] => none
      else if c == '-' || isDigitCh c then
        match parseJsonNum (c :: r) with
        | some (q, r2) => some (.num q, r2)
        | none => none
      else none

/-- Parse one or more comma-separated array elements up to `]`. -/
def parseJsonElems : Nat → List Char → Option (List Json × List Char)
  | 0, _ => none
  | fuel + 1, cs =>
    match parseJsonVal fuel cs with
    | none => none
    | some (v, r) =>
      match dropJsonWs r with
      | c :: r2 =>
        if c == ',' then
          match parseJsonElems fuel r2 with
          | some (vs, r3) => some (v :: vs, r3)
          | none => none
        else if c == ']' then some ([v], r2)
        else none
      | [] => none

/-- Parse one or more comma-separated object members up to the closing
brace. -/
def parseJsonMembers : Nat → List Char → Option (List (String × Json) × List Char)
  | 0, _ => none
  | fuel + 1, cs =>
    match dropJsonWs cs with
    | c :: r =>
      if c == '"' then
        match parseJsonStr [] r with
        | none => none
        | some (k, r1) =>
          match dropJsonWs r1 with
          | c2 :: r2 =>
            if c2 == ':' then
              match parseJsonVal fuel r2 with
              | none => none
              | some (v, r3) =>
                match dropJsonWs r3 with
                | c3 :: r4 =>
                  if c3 == ',' then
                    match parseJsonMembers fuel r4 with
                    | some (ms, r5) => some ((k, v) :: ms, r5)
                    | none => none
                  else if c3 == rb then some ((k, v) :: [], r4)
                  else none
                | [] => none
            else none
          | [] => none
      else none
    | [] => none

end

/-- Python `json.loads`: parse one value and require only whitespace after
it.  Each unit of fuel is spent only after consuming at least one character,
except that a nesting level spends two, so `2·length + 4` never runs out. -/
def jsonLoads (s : String) : Option Json :=
  match parseJsonVal (2 * s.data.length + 4) s.data with
  | none => none
  | some (j, rest) => if dropJsonWs rest == [] then some j else none

/-! ### Python value coercions used by `_parse_llm_response` -/

/-- Python `float(str)` on a plain numeric literal: optional surrounding
whitespace, optional sign, digits with an optional fraction and exponent.
(`inf`/`nan`/underscore literals are not modelled; no embedded call site
produces them.)  `none` models the `ValueError` the except-clause catches. -/
def pyFloatOfString (s : String) : Option ℚ :=
  let cs := (s.data.dropWhile isPyWs).reverse.dropWhile isPyWs |>.reverse
  let sgn : ℚ × List Char := match cs with
    | c :: r => if c == '-' then (-1, r) else if c == '+' then (1, r) else (1, cs)
    | [] => (1, cs)
  let (ds, r1) := spanDigits sgn.2
  let (fds, r2) : List Char × List Char := match r1 with
    | c :: r => if c == '.' then spanDigits r else ([], r1)
    | [] => ([], r1)
  if ds.isEmpty && fds.isEmpty then none
  else
    let expPart : Option (Int × List Char) := match r2 with
      | c :: r =>
        if c == 'e' || c == 'E' then
          let se : Int × List Char := match r with
            | c2 :: r2b =>
              if c2 == '+' then (1, r2b)
              else if c2 == '-' then (-1, r2b)
              else (1, r)
            | [] => (1, r)
          let (eds, r3) := spanDigits se.2
          if eds.isEmpty then none else some (se.1 * (digitsToNat eds : Int), r3)
        else some (0, r2)
      | [] => some (0, r2)
    match expPart with
    | none => none
    | some (e, rest) =>
      if rest.isEmpty then
        some (sgn.1 * ((digitsToNat (ds ++ fds) : ℚ) / qPow10 fds.length) * qTenPow e)
      else none

/-- Python `float(x)` on a parsed JSON value.  Booleans coerce (`bool` is an
`int` subclass); strings go through the literal parser; `None`, lists and
dicts raise, modelled as `none`. -/
def pyFloat : Json → Option ℚ
  | .num q => some q
  | .bool b => some (if b then 1 else 0)
  | .str s => pyFloatOfString s
  | _ => none

mutual

/-- Python `str(x)` on a parsed JSON value.  For strings it is the identity —
the only case the embedded claims reach.  Containers and numbers are rendered
in a simplified form (Python renders floats and nested reprs differently);
this never matters because `str` is total either way and no claim inspects a
non-string rendering. -/
def pyToStr : Json → String
  | .null => "None"
  | .bool b => if b then "True" else "False"
  | .num q =>
    if q.den == 1 then toString q.num else toString q.num ++ "/" ++ toString q.den
  | .str s => s
  | .arr xs => "[" ++ String.intercalate ", " (pyToStrList xs) ++ "]"
  | .obj kvs =>
    "\x7b" ++ String.intercalate ", " (pyToStrKV kvs) ++ "\x7d"

def pyToStrList : List Json → List String
  | [] => []
  | j :: js => pyToStr j :: pyToStrList js

def pyToStrKV : List (String × Json) → List String
  | [] => []
  | m :: ms => ("\x27" ++ m.1 ++ "\x27: " ++ pyToStr m.2) :: pyToStrKV ms

end

/-! ### ai_service.py — `_parse_llm_response` -/

/-- The result dict shape shared by both classification paths (spec's
`ClassificationResult`).  The Python dicts may carry extra keys copied from
the LLM's JSON; neither the validator nor any claim reads them, so only the
three contract fields are modelled. -/
structure ClassificationResult where
  classification : String
  confidence : ℚ
  explanation : String
deriving Repr, DecidableEq, Inhabited

/-- Default explanation inserted when the LLM's JSON lacks the key
(ai_service.py line 101). -/
def defaultExplanation : String := "Classification based on audio feature analysis."

/-- Python `min(a, b)`: the second argument only when strictly smaller. -/
def pyMinQ (a b : ℚ) : ℚ := if b < a then b else a

/-- Python `max(a, b)`: the second argument only when strictly larger. -/
def pyMaxQ (a b : ℚ) : ℚ := if a < b then b else a

/-- Clamp `max(0.0, min(1.0, confidence))` (ai_service.py line 114). -/
def clamp01 (q : ℚ) : ℚ := pyMaxQ 0 (pyMinQ 1 q)

/-- Classification normalization (ai_service.py lines 104-110):
uppercase, spaces to underscores; if still not one of the two enum values,
re-map by substring — anything containing "AI" or "SYNTHETIC" becomes
AI_GENERATED, everything else HUMAN. -/
def normalizeClassification (c : String) : String :=
  let u := pyReplaceSpaceUnderscore (pyUpper c)
  if u == "AI_GENERATED" || u == "HUMAN" then u
  else if strHasSub u "AI" || strHasSub u "SYNTHETIC" then "AI_GENERATED"
  else "HUMAN"

/-- Field validation and normalization applied to the parsed JSON value
(ai_service.py lines 95-119).  `none` models every exception path the
surrounding `except` clauses catch: a missing `classification` key (explicit
`return None`), `.upper()` on a non-string classification
(`AttributeError`), and `float(...)` on an uncoercible confidence
(`TypeError`/`ValueError`).  A non-object value is unreachable here because
the extracted span starts with a brace, and would raise on the `in` test. -/
def normalizeLLMJson (j : Json) : Option ClassificationResult :=
  match j with
  | .obj kvs =>
    match jGet kvs "classification" with
    | none => none
    | some cval =>
      let confJ := (jGet kvs "confidence").getD (.num ((7 : ℚ) / 10))
      let explJ := (jGet kvs "explanation").getD (.str defaultExplanation)
      match cval with
      | .str c =>
        match pyFloat confJ with
        | none => none
        | some q =>
          some { classification := normalizeClassification c
                 confidence := clamp01 q
                 explanation := pyTruncate (pyToStr explJ) 240 }
      | _ => none
  | _ => none

/-- The first-brace/last-brace span extraction (ai_service.py lines 85-92):
`start = find(lbrace)`, `end = rfind(rbrace) + 1`, `none` when either is
missing, else the slice `response[start:end]` (empty when the last closing
brace precedes the first opening one, exactly as in Python). -/
def extractBraceSpan (s : String) : Option String :=
  match pyFind s.data lb, pyRFind s.data rb with
  | some st, some en => some (pySlice s st (en + 1))
  | _, _ => none

/-- The JSON value a reply yields: strip, extract the brace span, parse. -/
def replyJson (response : String) : Option Json :=
  match extractBraceSpan (pyStrip response) with
  | none => none
  | some sub => jsonLoads sub

/-- `AIService._parse_llm_response` (ai_service.py lines 66-126): total —
every failure path returns `none` instead of raising. -/
def parse_llm_response (response : String) : Option ClassificationResult :=
  match replyJson response with
  | none => none
  | some j => normalizeLLMJson j

/-! ### ai_service.py — `classify_with_llm`, abstracting the provider call -/

/-- `AIService.classify_with_llm` (ai_service.py lines 36-64) given the
provider's reply: `generate` returning `None` — or any falsy reply, which
for strings is exactly `""` — yields no result; otherwise the reply is
parsed.  The prompt construction does not affect the result and is not
modelled. -/
def classify_with_llm (reply : Option String) : Option ClassificationResult :=
  match reply with
  | none => none
  | some resp => if resp == "" then none else parse_llm_response resp

/-! ### decision_service.py -/

/-- `DecisionService._validate_result` (decision_service.py lines 60-80).
The modelled result dict always holds a rational confidence, so the Python
`isinstance(confidence, (int, float))` test is satisfied by construction. -/
def validate_result (r : ClassificationResult) : Bool :=
  (r.classification == "AI_GENERATED" || r.classification == "HUMAN")
    && (decide ((0 : ℚ) ≤ r.confidence) && decide (r.confidence ≤ (1 : ℚ)))
    && (r.explanation.length != 0)

/-- The features dict (spec's `FeatureSet`), as returned by
`extract_features`: all four keys present, so the `.get` defaults in the
heuristic never fire. -/
structure FeatureSet where
  duration : ℚ
  silence_ratio : ℚ
  avg_volume : ℚ
  pitch_variance : ℚ
deriving Repr, DecidableEq, Inhabited

/-- The heuristic score accumulated by `_heuristic_classify`
(decision_service.py lines 108-124). -/
def aiScore (f : FeatureSet) : ℚ :=
  (if f.pitch_variance < ((15 : ℚ) / 100) then ((4 : ℚ) / 10) else 0)
    + (if f.silence_ratio < ((5 : ℚ) / 100) then ((3 : ℚ) / 10) else 0)
    + (if ((3 : ℚ) / 100) < f.avg_volume ∧ f.avg_volume < ((8 : ℚ) / 100) then ((2 : ℚ) / 10) else 0)

/-- The reasons list accumulated alongside the score, in source order. -/
def aiReasons (f : FeatureSet) : List String :=
  (if f.pitch_variance < ((15 : ℚ) / 100) then ["consistent pitch patterns"] else [])
    ++ (if f.silence_ratio < ((5 : ℚ) / 100) then ["minimal natural pauses"] else [])
    ++ (if ((3 : ℚ) / 100) < f.avg_volume ∧ f.avg_volume < ((8 : ℚ) / 100)
        then ["normalized volume levels"] else [])

/-- `DecisionService._heuristic_classify` (decision_service.py lines
82-141).  The `or` on the joined reasons models Python's falsy-string
fallback; the final dict truncates the explanation to 240 characters. -/
def heuristic_classify (f : FeatureSet) : ClassificationResult :=
  let score := aiScore f
  let joined := String.intercalate ", " (aiReasons f)
  if score ≥ ((5 : ℚ) / 10) then
    { classification := "AI_GENERATED"
      confidence := ((55 : ℚ) / 100)
      explanation :=
        pyTruncate
          ("Audio shows " ++ (if joined == "" then "synthetic characteristics" else joined)
            ++ ". Features suggest machine-generated speech patterns.") 240 }
  else
    { classification := "HUMAN"
      confidence := ((55 : ℚ) / 100)
      explanation :=
        pyTruncate
          ("Audio exhibits natural variations in pitch and rhythm consistent with authentic human speech patterns.")
          240 }

/-- What the orchestrator's `try` block observes from the LLM attempt:
either some exception was raised inside it, or `generate` completed with an
optional reply string. -/
inductive LLMOutcome where
  | raised : LLMOutcome
  | replied : Option String → LLMOutcome

/-- `DecisionService.classify` (decision_service.py lines 29-58): accept the
LLM result only when it exists (a non-empty dict is truthy) and validates;
on a raised exception, a missing result, or a failed validation, fall back
to the heuristic.  Total: no exception reaches the caller. -/
def classify (f : FeatureSet) (o : LLMOutcome) : ClassificationResult :=
  match o with
  | .raised => heuristic_classify f
  | .replied reply =>
    match classify_with_llm reply with
    | some r => if validate_result r then r else heuristic_classify f
    | none => heuristic_classify f

/-! ### audio_service.py — silence ratio and base64 decoding -/

/-- `np.max` over the RMS frame values: raises `ValueError` on an empty
array (audio_service.py line 162 runs before the length guard on line
164). -/
def npMax : List ℚ → Except String ℚ
  | [] => .error "zero-size array to reduction operation maximum which has no identity"
  | x :: xs => .ok (xs.foldl max x)

/-- The silence-ratio computation inside `extract_features`
(audio_service.py lines 160-164), as a function of the frame-wise RMS values
the library returns: threshold = 0.1 × max, count frames strictly below it,
divide by the frame count — with the dead `else 0.0` guard reproduced after
the `np.max` call, exactly as in the source. -/
def silence_ratio_of (rms : List ℚ) : Except String ℚ :=
  match npMax rms with
  | .error e => .error ("Feature extraction failed: " ++ e)
  | .ok m =>
    let threshold := m * ((1 : ℚ) / 10)
    let silenceFrames := rms.countP (fun x => decide (x < threshold))
    .ok (if rms.length > 0 then (silenceFrames : ℚ) / (rms.length : ℚ) else 0)

/-- Base64 alphabet value of a character (RFC 4648 standard alphabet). -/
def b64Val (c : Char) : Option Nat :=
  if 'A' ≤ c && c ≤ 'Z' then some (c.toNat - 65)
  else if 'a' ≤ c && c ≤ 'z' then some (c.toNat - 71)
  else if '0' ≤ c && c ≤ '9' then some (c.toNat + 4)
  else if c == '+' then some 62
  else if c == '/' then some 63
  else none

/-- Decode complete base64 quads into byte triples. -/
def b64Quads : List Nat → List Nat
  | a :: b :: c :: d :: rest =>
    let n := ((a * 64 + b) * 64 + c) * 64 + d
    n / 65536 :: n / 256 % 256 :: n % 256 :: b64Quads rest
  | _ => []

/-- Python `base64.b64decode` with default `validate=False`: characters
outside the alphabet are discarded; data stops at the first `=`; the
remaining length mod 4 must be 0, or 2/3 with enough padding characters
present, else `binascii.Error` — the only way this decoder fails. -/
def pyB64Decode (s : String) : Except String (List Nat) :=
  let beforePad := s.data.takeWhile (fun c => c != '=')
  let data := beforePad.filterMap b64Val
  let pads := (s.data.dropWhile (fun c => c != '=')).countP (fun c => c == '=')
  let r := data.length % 4
  if r == 0 then .ok (b64Quads data)
  else if r == 1 then
    .error "Invalid base64-encoded string: number of data characters cannot be 1 more than a multiple of 4"
  else if r == 2 then
    if pads ≥ 2 then
      let main := b64Quads (data.take (data.length - 2))
      match data.drop (data.length - 2) with
      | [a, b] => .ok (main ++ [(a * 64 + b) / 16])
      | _ => .ok main
    else .error "Incorrect padding"
  else
    if pads ≥ 1 then
      let main := b64Quads (data.take (data.length - 3))
      match data.drop (data.length - 3) with
      | [a, b, c] =>
        let v := (a * 64 + b) * 64 + c
        .ok (main ++ [v / 1024, v / 4 % 256])
      | _ => .ok main
    else .error "Incorrect padding"

/-- Python `base64_data.split(",")[1]`: the segment strictly between the
first and the second comma (audio_service.py line 91). -/
def splitCommaSecond (s : String) : String :=
  String.mk (((s.data.dropWhile (fun c => c != ',')).drop 1).takeWhile (fun c => c != ','))

/-- `AudioService.decode_base64` (audio_service.py lines 77-99), as the
bytes it writes: when the input contains a comma, only `split(",")[1]` is
decoded; any decoding failure is re-raised as a `ValueError` whose message
carries the "Failed to decode base64 audio" marker (spec's
`AcquisitionError`). -/
def decode_base64 (s : String) : Except String (List Nat) :=
  let payload := if s.data.contains ',' then splitCommaSecond s else s
  match pyB64Decode payload with
  | .ok bs => .ok bs
  | .error e => .error ("Failed to decode base64 audio: " ++ e)

/-- Modelled from the spec: the spec's reading of the prefix strip —
"strip an optional leading data-URL prefix up to the `,` separator and
decode the remainder" — i.e. everything after the FIRST comma.  Used only to
compare the spec's wording against `decode_base64`. -/
def specRemainderAfterComma (s : String) : String :=
  if s.data.contains ',' then String.mk ((s.data.dropWhile (fun c => c != ',')).drop 1)
  else s

/-! ### Helper lemmas -/

/-- Both heuristic branches fix the confidence at 0.55. -/
theorem heuristic_confidence_eq (f : FeatureSet) :
    (heuristic_classify f).confidence = ((55 : ℚ) / 100) := by
  by_cases hs : aiScore f ≥ ((5 : ℚ) / 10) <;> simp [heuristic_classify, hs]

/-- The heuristic decision is exactly the score-threshold test. -/
theorem heuristic_classification_cases (f : FeatureSet) :
    (heuristic_classify f).classification
      = if aiScore f ≥ ((5 : ℚ) / 10) then "AI_GENERATED" else "HUMAN" := by
  by_cases hs : aiScore f ≥ ((5 : ℚ) / 10) <;> simp [heuristic_classify, hs]

/-- Above the threshold, the explanation is the AI-branch template around the
joined reasons (with the falsy-string fallback still visible). -/
theorem heuristic_ai_explanation (f : FeatureSet) (h : aiScore f ≥ ((5 : ℚ) / 10)) :
    (heuristic_classify f).explanation
      = pyTruncate ("Audio shows "
          ++ (if String.intercalate ", " (aiReasons f) == "" then "synthetic characteristics"
              else String.intercalate ", " (aiReasons f))
          ++ ". Features suggest machine-generated speech patterns.") 240 := by
  simp [heuristic_classify, h]

/-- Truncation bounds the length. -/
theorem pyTruncate_length_le (s : String) (n : Nat) : (pyTruncate s n).length ≤ n := by
  show (s.data.take n).length ≤ n
  rw [List.length_take]
  exact min_le_left _ _

/-- The clamp lands in the unit interval. -/
theorem clamp01_mem (q : ℚ) : 0 ≤ clamp01 q ∧ clamp01 q ≤ 1 := by
  unfold clamp01 pyMaxQ pyMinQ
  split_ifs <;> constructor <;> linarith

/-- The ClassificationResult invariant of the spec's data model. -/
def wellFormedResult (r : ClassificationResult) : Prop :=
  0 ≤ r.confidence ∧ r.confidence ≤ 1 ∧ r.explanation.length ≤ 240
    ∧ (r.classification = "AI_GENERATED" ∨ r.classification = "HUMAN")

/-- Normalization always lands on one of the two enum values. -/
theorem normalizeClassification_mem (c : String) :
    normalizeClassification c = "AI_GENERATED" ∨ normalizeClassification c = "HUMAN" := by
  simp only [normalizeClassification]
  split_ifs with h1 h2
  · simpa [Bool.or_eq_true, beq_iff_eq] using h1
  · exact Or.inl rfl
  · exact Or.inr rfl

/-- Every result the JSON normalizer produces is well-formed. -/
theorem normalizeLLMJson_wf (j : Json) (r : ClassificationResult)
    (h : normalizeLLMJson j = some r) : wellFormedResult r := by
  cases j <;> simp only [normalizeLLMJson] at h <;> try exact Option.noConfusion h
  case obj kvs =>
    cases hc : jGet kvs "classification" <;> rw [hc] at h
    · exact Option.noConfusion h
    case some cval =>
      cases cval <;> try exact Option.noConfusion h
      case str c =>
        cases hf : pyFloat ((jGet kvs "confidence").getD (.num ((7 : ℚ) / 10))) <;>
          simp only [hf] at h
        · exact Option.noConfusion h
        case some q =>
          simp only [Option.some.injEq] at h
          subst h
          exact ⟨(clamp01_mem q).1, (clamp01_mem q).2,
            pyTruncate_length_le _ _, normalizeClassification_mem c⟩

/-- The heuristic result is well-formed. -/
theorem heuristic_wf (f : FeatureSet) : wellFormedResult (heuristic_classify f) := by
  refine ⟨?_, ?_, ?_, ?_⟩
  · rw [heuristic_confidence_eq]; norm_num
  · rw [heuristic_confidence_eq]; norm_num
  · by_cases hs : aiScore f ≥ ((5 : ℚ) / 10) <;> simp [heuristic_classify, hs] <;>
      exact pyTruncate_length_le _ _
  · rw [heuristic_classification_cases]
    by_cases hs : aiScore f ≥ ((5 : ℚ) / 10)
    · rw [if_pos hs]; exact Or.inl rfl
    · rw [if_neg hs]; exact Or.inr rfl

/-- Every result the reply parser produces is well-formed. -/
theorem parse_llm_response_wf (s : String) (r : ClassificationResult)
    (h : parse_llm_response s = some r) : wellFormedResult r := by
  unfold parse_llm_response at h
  cases hj : replyJson s <;> rw [hj] at h
  · exact Option.noConfusion h
  · exact normalizeLLMJson_wf _ _ h

/-- A string has length zero exactly when it is empty. -/
theorem string_length_ne_zero_iff (s : String) : s.length ≠ 0 ↔ s ≠ "" := by
  constructor
  · intro h he
    subst he
    exact h rfl
  · intro h hl
    apply h
    cases s with
    | mk d =>
      have hd : d = [] := List.length_eq_zero.mp hl
      rw [hd]

/-- `pyFind` misses exactly when the character is absent. -/
theorem pyFind_eq_none_iff (cs : List Char) (c : Char) :
    pyFind cs c = none ↔ c ∉ cs := by
  simp only [pyFind, List.findIdx?_eq_none_iff, beq_eq_false_iff_ne, ne_eq]
  constructor
  · intro h hc
    exact (h c hc) rfl
  · intro h x hx he
    subst he
    exact h hx

/-- `pyRFind` misses exactly when the character is absent. -/
theorem pyRFind_eq_none_iff (cs : List Char) (c : Char) :
    pyRFind cs c = none ↔ c ∉ cs := by
  unfold pyRFind
  cases hr : List.findIdx? (fun x => x == c) cs.reverse with
  | none =>
    have hmem : c ∉ cs := by
      intro hc
      have hb := List.findIdx?_eq_none_iff.mp hr c (List.mem_reverse.mpr hc)
      simp at hb
    simp [hmem]
  | some i =>
    constructor
    · intro h
      exact Option.noConfusion h
    · intro h
      exfalso
      have hnone : List.findIdx? (fun x => x == c) cs.reverse = none := by
        rw [List.findIdx?_eq_none_iff]
        intro x hx
        rw [beq_eq_false_iff_ne]
        intro he
        subst he
        exact h (List.mem_reverse.mp hx)
      rw [hnone] at hr
      exact Option.noConfusion hr

/-- The brace-span extraction fails exactly when a brace is missing. -/
theorem extractBraceSpan_eq_none_iff (t : String) :
    extractBraceSpan t = none ↔ (lb ∉ t.data ∨ rb ∉ t.data) := by
  unfold extractBraceSpan
  cases hf : pyFind t.data lb with
  | none =>
    have h1 : lb ∉ t.data := (pyFind_eq_none_iff _ _).mp hf
    simp [h1]
  | some st =>
    cases hr : pyRFind t.data rb with
    | none =>
      have h2 : rb ∉ t.data := (pyRFind_eq_none_iff _ _).mp hr
      simp [h2]
    | some en =>
      constructor
      · intro h
        exact Option.noConfusion h
      · rintro (h | h)
        · rw [(pyFind_eq_none_iff _ _).mpr h] at hf
          exact Option.noConfusion hf
        · rw [(pyRFind_eq_none_iff _ _).mpr h] at hr
          exact Option.noConfusion hr

/-- The Bool-level normalization agrees with the claim's propositional
description of it. -/
theorem normalizeClassification_spec (c : String) :
    normalizeClassification c
      = (if (pyReplaceSpaceUnderscore (pyUpper c) = "AI_GENERATED"
            ∨ pyReplaceSpaceUnderscore (pyUpper c) = "HUMAN")
         then pyReplaceSpaceUnderscore (pyUpper c)
         else if (strHasSub (pyReplaceSpaceUnderscore (pyUpper c)) "AI" = true
              ∨ strHasSub (pyReplaceSpaceUnderscore (pyUpper c)) "SYNTHETIC" = true)
         then "AI_GENERATED"
         else "HUMAN") := by
  have hb : ((pyReplaceSpaceUnderscore (pyUpper c) == "AI_GENERATED"
        || pyReplaceSpaceUnderscore (pyUpper c) == "HUMAN") = true)
      ↔ (pyReplaceSpaceUnderscore (pyUpper c) = "AI_GENERATED"
          ∨ pyReplaceSpaceUnderscore (pyUpper c) = "HUMAN") := by
    simp [Bool.or_eq_true, beq_iff_eq]
  have hb2 : ((strHasSub (pyReplaceSpaceUnderscore (pyUpper c)) "AI"
        || strHasSub (pyReplaceSpaceUnderscore (pyUpper c)) "SYNTHETIC") = true)
      ↔ (strHasSub (pyReplaceSpaceUnderscore (pyUpper c)) "AI" = true
          ∨ strHasSub (pyReplaceSpaceUnderscore (pyUpper c)) "SYNTHETIC" = true) := by
    simp [Bool.or_eq_true]
  simp only [normalizeClassification]
  by_cases h1 : (pyReplaceSpaceUnderscore (pyUpper c) = "AI_GENERATED"
      ∨ pyReplaceSpaceUnderscore (pyUpper c) = "HUMAN")
  · rw [if_pos (hb.mpr h1), if_pos h1]
  · rw [if_neg (fun hx => h1 (hb.mp hx)), if_neg h1]
    by_cases h2 : (strHasSub (pyReplaceSpaceUnderscore (pyUpper c)) "AI" = true
        ∨ strHasSub (pyReplaceSpaceUnderscore (pyUpper c)) "SYNTHETIC" = true)
    · rw [if_pos (hb2.mpr h2), if_pos h2]
    · rw [if_neg (fun hx => h2 (hb2.mp hx)), if_neg h2]

/-- A list free of commas is untouched by the comma `takeWhile`. -/
theorem takeWhile_of_count_comma_zero (l : List Char) (h : l.count ',' = 0) :
    l.takeWhile (fun c => c != ',') = l := by
  induction l with
  | nil => rfl
  | cons a t ih =>
    by_cases ha : (a == ',') = true
    · rw [List.count_cons, if_pos ha] at h
      exact absurd h (by omega)
    · rw [List.count_cons, if_neg ha] at h
      have ha' : a ≠ ',' := fun he => ha (by simp [he])
      have hb : (a != ',') = true := bne_iff_ne.mpr ha'
      rw [List.takeWhile_cons, if_pos hb, ih (by omega)]

/-- After the first comma of a ≤1-comma list no comma remains. -/
theorem count_after_first_comma (l : List Char) (hc : l.contains ',' = true)
    (h1 : l.count ',' ≤ 1) : ((l.dropWhile (fun c => c != ',')).drop 1).count ',' = 0 := by
  induction l with
  | nil => simp at hc
  | cons a t ih =>
    by_cases ha : (a == ',') = true
    · have ha' : a = ',' := by simpa [beq_iff_eq] using ha
      subst ha'
      rw [List.dropWhile_cons, if_neg (by simp)]
      simp only [List.drop_succ_cons, List.drop_zero]
      rw [List.count_cons, if_pos (by simp)] at h1
      omega
    · have hc' : t.contains ',' = true := by
        rw [List.contains_cons] at hc
        rcases Bool.or_eq_true _ _ |>.mp hc with hx | hx
        · have he : ',' = a := by simpa [beq_iff_eq] using hx
          subst he
          exact absurd (by simp) ha
        · exact hx
      have h1' : t.count ',' ≤ 1 := by
        rw [List.count_cons, if_neg ha] at h1
        omega
      have ha' : a ≠ ',' := fun he => ha (by simp [he])
      rw [List.dropWhile_cons, if_pos (bne_iff_ne.mpr ha')]
      exact ih hc' h1'

/-- A string always contains its own left factor. -/
theorem strHasSub_append_left (a b : String) : strHasSub (a ++ b) a = true := by
  unfold strHasSub
  rw [List.any_eq_true]
  refine ⟨0, ?_, ?_⟩
  · simp
  · have hd : (a ++ b).data = a.data ++ b.data := by
      cases a
      cases b
      rfl
    simp [hd, List.take_left]

/-! ### Claim theorems -/

/-- C1: the heuristic classifier starts from score 0.0, adds 0.4 / 0.3 / 0.2
for low pitch variance, low silence ratio, and mid-range average volume
respectively, returns AI_GENERATED exactly when the score reaches 0.5 and
HUMAN otherwise, always with confidence exactly 0.55; with all three
conditions the score is 0.9 (AI_GENERATED), with none it is 0.0 (HUMAN). -/
theorem heuristic_thresholds (f : FeatureSet) :
    (heuristic_classify f).confidence = ((55 : ℚ) / 100)
    ∧ ((heuristic_classify f).classification = "AI_GENERATED" ↔ aiScore f ≥ ((5 : ℚ) / 10))
    ∧ ((heuristic_classify f).classification = "HUMAN" ↔ aiScore f < ((5 : ℚ) / 10))
    ∧ (f.pitch_variance < ((15 : ℚ) / 100) → f.silence_ratio < ((5 : ℚ) / 100) →
        ((3 : ℚ) / 100) < f.avg_volume → f.avg_volume < ((8 : ℚ) / 100) →
        aiScore f = ((9 : ℚ) / 10) ∧ (heuristic_classify f).classification = "AI_GENERATED")
    ∧ (((15 : ℚ) / 100) ≤ f.pitch_variance → ((5 : ℚ) / 100) ≤ f.silence_ratio →
        ¬(((3 : ℚ) / 100) < f.avg_volume ∧ f.avg_volume < ((8 : ℚ) / 100)) →
        aiScore f = 0 ∧ (heuristic_classify f).classification = "HUMAN") := by
  refine ⟨heuristic_confidence_eq f, ?_, ?_, ?_, ?_⟩
  · rw [heuristic_classification_cases]
    by_cases hs : aiScore f ≥ ((5 : ℚ) / 10)
    · simp [hs]
    · simp [hs]
  · rw [heuristic_classification_cases]
    by_cases hs : aiScore f ≥ ((5 : ℚ) / 10)
    · simp [hs, not_lt.mpr hs]
    · simp [hs, lt_of_not_ge hs]
  · intro hp hsr hv1 hv2
    have hscore : aiScore f = ((9 : ℚ) / 10) := by
      simp only [aiScore, if_pos hp, if_pos hsr, if_pos (And.intro hv1 hv2)]
      norm_num
    refine ⟨hscore, ?_⟩
    rw [heuristic_classification_cases, hscore]
    norm_num
  · intro hp hsr hv
    have e1 : ¬(f.pitch_variance < ((15 : ℚ) / 100)) := not_lt.mpr hp
    have e2 : ¬(f.silence_ratio < ((5 : ℚ) / 100)) := not_lt.mpr hsr
    have hscore : aiScore f = 0 := by
      simp only [aiScore, if_neg e1, if_neg e2, if_neg hv]
      norm_num
    refine ⟨hscore, ?_⟩
    rw [heuristic_classification_cases, hscore]
    norm_num

/-- Witness for C1: a FeatureSet meeting all three conditions scores 0.9 and
classifies as AI_GENERATED with confidence 0.55. -/
theorem heuristic_thresholds_witness :
    aiScore ⟨1, 1 / 100, 5 / 100, 1 / 10⟩ = ((9 : ℚ) / 10)
    ∧ (heuristic_classify ⟨1, 1 / 100, 5 / 100, 1 / 10⟩).classification = "AI_GENERATED" :=
  (heuristic_thresholds ⟨1, 1 / 100, 5 / 100, 1 / 10⟩).2.2.2.1
    (by norm_num) (by norm_num) (by norm_num) (by norm_num)

/-- C9: whenever the heuristic score reaches 0.5 the reasons list is
non-empty, so the AI_GENERATED explanation always lists the matched reasons
and the literal "synthetic characteristics" fallback is dead code under the
current thresholds. -/
theorem heuristic_reasons_nonempty (f : FeatureSet) (h : aiScore f ≥ ((5 : ℚ) / 10)) :
    aiReasons f ≠ []
    ∧ String.intercalate ", " (aiReasons f) ≠ ""
    ∧ (heuristic_classify f).explanation
        = pyTruncate ("Audio shows " ++ String.intercalate ", " (aiReasons f)
            ++ ". Features suggest machine-generated speech patterns.") 240 := by
  by_cases h1 : f.pitch_variance < ((15 : ℚ) / 100) <;>
    by_cases h2 : f.silence_ratio < ((5 : ℚ) / 100) <;>
      by_cases h3 : (((3 : ℚ) / 100) < f.avg_volume ∧ f.avg_volume < ((8 : ℚ) / 100))
  all_goals first
    | (have hsc : aiScore f < ((5 : ℚ) / 10) := by
         simp [aiScore, h1, h2, h3]
         try norm_num
       exact absurd h (not_le.mpr hsc))
    | (refine ⟨?_, ?_, ?_⟩
       · simp [aiReasons, h1, h2, h3]
       · simp only [aiReasons, h1, h2, h3, if_true, if_false]
         decide
       · rw [heuristic_ai_explanation f h]
         simp only [aiReasons, h1, h2, h3, if_true, if_false]
         decide)

/-- Witness for C9: with all three conditions holding, the reasons join is
the three comma-separated reasons and the explanation embeds it. -/
theorem heuristic_reasons_nonempty_witness :
    aiReasons ⟨1, 1 / 100, 5 / 100, 1 / 10⟩ ≠ []
    ∧ String.intercalate ", " (aiReasons ⟨1, 1 / 100, 5 / 100, 1 / 10⟩) ≠ ""
    ∧ (heuristic_classify ⟨1, 1 / 100, 5 / 100, 1 / 10⟩).explanation
        = pyTruncate ("Audio shows "
            ++ String.intercalate ", " (aiReasons ⟨1, 1 / 100, 5 / 100, 1 / 10⟩)
            ++ ". Features suggest machine-generated speech patterns.") 240 :=
  heuristic_reasons_nonempty ⟨1, 1 / 100, 5 / 100, 1 / 10⟩ (by norm_num [aiScore])

/-- C6: the code computes `np.max(rms)` before the frame-count guard, so an
empty RMS frame list raises (and surfaces as `FeatureExtractionError`)
instead of yielding silence_ratio 0 as the dead `else 0.0` guard and the
spec intend; on non-empty frames the below-threshold-count / total formula
holds (second conjunct evaluates it on a concrete signal: threshold
0.1 × 2, two of four frames below, ratio 1/2). -/
theorem silence_ratio_empty_rms_raises :
    silence_ratio_of []
      = .error "Feature extraction failed: zero-size array to reduction operation maximum which has no identity"
    ∧ silence_ratio_of [1, 0, 0, 2] = .ok ((1 : ℚ) / 2) := by
  refine ⟨rfl, ?_⟩
  norm_num [silence_ratio_of, npMax]

/-- C5: every ClassificationResult either path produces has confidence in
[0,1], an explanation of at most 240 characters, and one of the two enum
classifications — construction clamps and truncates rather than failing. -/
theorem classification_result_invariant (f : FeatureSet) (o : LLMOutcome) :
    wellFormedResult (classify f o) := by
  cases o with
  | raised => exact heuristic_wf f
  | replied reply =>
    cases hcw : classify_with_llm reply with
    | none =>
      simp only [classify, hcw]
      exact heuristic_wf f
    | some r =>
      simp only [classify, hcw]
      by_cases hv : validate_result r = true
      · rw [if_pos hv]
        cases reply with
        | none => exact Option.noConfusion hcw
        | some resp =>
          simp only [classify_with_llm] at hcw
          by_cases he : (resp == "") = true
          · rw [if_pos he] at hcw
            exact Option.noConfusion hcw
          · rw [if_neg he] at hcw
            exact parse_llm_response_wf resp r hcw
      · rw [if_neg hv]
        exact heuristic_wf f

/-- C2: the orchestrator returns the LLM-derived result exactly when the
LLM path yields one whose classification is an enum value, whose confidence
lies in [0,1], and whose explanation is non-empty; on a raised exception, a
missing reply, an unparseable reply, or a failed validity check it returns
the heuristic classification — and, being a total function, it never
propagates an exception. -/
theorem classify_accepts_exactly_valid (f : FeatureSet) (o : LLMOutcome) :
    (∀ resp r, o = .replied (some resp) → resp ≠ "" →
        parse_llm_response resp = some r → validate_result r = true → classify f o = r)
    ∧ (o = .raised → classify f o = heuristic_classify f)
    ∧ (o = .replied none → classify f o = heuristic_classify f)
    ∧ (∀ resp, o = .replied (some resp) → classify_with_llm (some resp) = none →
        classify f o = heuristic_classify f)
    ∧ (∀ resp r, o = .replied (some resp) → classify_with_llm (some resp) = some r →
        validate_result r = false → classify f o = heuristic_classify f)
    ∧ (∀ r, validate_result r = true ↔
        ((r.classification = "AI_GENERATED" ∨ r.classification = "HUMAN")
          ∧ 0 ≤ r.confidence ∧ r.confidence ≤ 1 ∧ r.explanation ≠ "")) := by
  refine ⟨?_, ?_, ?_, ?_, ?_, ?_⟩
  · intro resp r ho hne hp hv
    subst ho
    have he : (resp == "") = false := by
      rw [beq_eq_false_iff_ne]
      exact hne
    simp only [classify, classify_with_llm, he, Bool.false_eq_true, if_false, hp, hv, if_true]
  · intro ho
    subst ho
    rfl
  · intro ho
    subst ho
    rfl
  · intro resp ho hw
    subst ho
    simp only [classify, hw]
  · intro resp r ho hw hv
    subst ho
    simp only [classify, hw, hv, Bool.false_eq_true, if_false]
  · intro r
    unfold validate_result
    constructor
    · intro h
      simp only [Bool.and_eq_true, Bool.or_eq_true, beq_iff_eq, decide_eq_true_eq,
        bne_iff_ne, ne_eq] at h
      exact ⟨h.1.1, h.1.2.1, h.1.2.2, (string_length_ne_zero_iff _).mp h.2⟩
    · intro h
      simp only [Bool.and_eq_true, Bool.or_eq_true, beq_iff_eq, decide_eq_true_eq,
        bne_iff_ne, ne_eq]
      exact ⟨⟨h.1, h.2.1, h.2.2.1⟩, (string_length_ne_zero_iff _).mpr h.2.2.2⟩

/-- Witness for C2: on a reply carrying a valid JSON verdict the
orchestrator returns the parsed LLM result itself. -/
theorem classify_accepts_exactly_valid_witness :
    classify ⟨1, 1 / 2, 1 / 2, 1 / 2⟩
        (.replied (some "\x7b\"classification\":\"HUMAN\",\"confidence\":0.9,\"explanation\":\"natural pauses\"\x7d"))
      = ⟨"HUMAN", (9 : ℚ) / 10, "natural pauses"⟩ :=
  (classify_accepts_exactly_valid ⟨1, 1 / 2, 1 / 2, 1 / 2⟩
      (.replied (some "\x7b\"classification\":\"HUMAN\",\"confidence\":0.9,\"explanation\":\"natural pauses\"\x7d"))).1
    "\x7b\"classification\":\"HUMAN\",\"confidence\":0.9,\"explanation\":\"natural pauses\"\x7d"
    ⟨"HUMAN", (9 : ℚ) / 10, "natural pauses"⟩ rfl (by decide)
    (by with_unfolding_all rfl) (by with_unfolding_all rfl)

/-- C3: the reply parser never raises — it extracts the first-open-brace /
last-close-brace span of the stripped reply; when either brace is missing,
or the span fails to parse as JSON, it returns `none` rather than an
exception. -/
theorem parse_llm_response_no_raise (s : String) :
    ((lb ∉ (pyStrip s).data ∨ rb ∉ (pyStrip s).data) → parse_llm_response s = none)
    ∧ (extractBraceSpan (pyStrip s) = none ↔ (lb ∉ (pyStrip s).data ∨ rb ∉ (pyStrip s).data))
    ∧ (∀ sub, extractBraceSpan (pyStrip s) = some sub → jsonLoads sub = none →
        parse_llm_response s = none) := by
  refine ⟨?_, extractBraceSpan_eq_none_iff _, ?_⟩
  · intro h
    simp only [parse_llm_response, replyJson, (extractBraceSpan_eq_none_iff _).mpr h]
  · intro sub hsub hload
    simp only [parse_llm_response, replyJson, hsub, hload]

/-- Witness for C3: a brace-free reply and a reply whose span is not JSON
both yield no result. -/
theorem parse_llm_response_no_raise_witness :
    parse_llm_response "the model returned prose only" = none
    ∧ parse_llm_response "\x7bnot json\x7d" = none :=
  ⟨(parse_llm_response_no_raise "the model returned prose only").1 (Or.inl (by decide)),
    (parse_llm_response_no_raise "\x7bnot json\x7d").2.2 "\x7bnot json\x7d" rfl rfl⟩

/-- Supporting fact for C6 (not a claim theorem): on any non-empty RMS frame
list the code returns the strict-below-threshold count divided by the frame
count, with threshold 0.1 × max. -/
theorem silence_ratio_nonempty_formula (x : ℚ) (xs : List ℚ) :
    silence_ratio_of (x :: xs)
      = .ok (((x :: xs).countP (fun v => decide (v < (xs.foldl max x) * ((1 : ℚ) / 10))) : ℚ)
          / ((x :: xs).length : ℚ)) := by
  simp [silence_ratio_of, npMax]

/-- C4: on a reply whose JSON object carries a string classification, the
parser uppercases it, replaces spaces with underscores, keeps it if it is
already an enum value and otherwise re-maps by the "AI"/"SYNTHETIC"
substring rule; the confidence is coerced and clamped into [0,1] and the
explanation is truncated to 240 characters.  The second conjunct checks the
claim's concrete example end to end. -/
theorem parse_llm_response_normalizes (s : String) (kvs : List (String × Json)) (c : String)
    (hj : replyJson s = some (.obj kvs))
    (hc : jGet kvs "classification" = some (.str c)) :
    (∀ r, parse_llm_response s = some r →
        r.classification
            = (if (pyReplaceSpaceUnderscore (pyUpper c) = "AI_GENERATED"
                  ∨ pyReplaceSpaceUnderscore (pyUpper c) = "HUMAN")
               then pyReplaceSpaceUnderscore (pyUpper c)
               else if (strHasSub (pyReplaceSpaceUnderscore (pyUpper c)) "AI" = true
                    ∨ strHasSub (pyReplaceSpaceUnderscore (pyUpper c)) "SYNTHETIC" = true)
               then "AI_GENERATED"
               else "HUMAN")
          ∧ 0 ≤ r.confidence ∧ r.confidence ≤ 1
          ∧ r.explanation.length ≤ 240)
    ∧ parse_llm_response "blah \x7b\"classification\":\"ai\",\"confidence\":2,\"explanation\":\"x\"\x7d blah"
        = some ⟨"AI_GENERATED", 1, "x"⟩ := by
  constructor
  · intro r hr
    simp only [parse_llm_response, hj, normalizeLLMJson, hc] at hr
    cases hf : pyFloat ((jGet kvs "confidence").getD (.num ((7 : ℚ) / 10))) with
    | none =>
      simp only [hf] at hr
      exact Option.noConfusion hr
    | some q =>
      simp only [hf, Option.some.injEq] at hr
      subst hr
      exact ⟨normalizeClassification_spec c, (clamp01_mem q).1, (clamp01_mem q).2,
        pyTruncate_length_le _ _⟩
  · with_unfolding_all rfl

/-- Witness for C4: the claim's example reply, with classification "ai",
clamped confidence 2 → 1.0 and explanation "x". -/
theorem parse_llm_response_normalizes_witness :
    parse_llm_response "blah \x7b\"classification\":\"ai\",\"confidence\":2,\"explanation\":\"x\"\x7d blah"
      = some ⟨"AI_GENERATED", 1, "x"⟩ :=
  (parse_llm_response_normalizes
      "blah \x7b\"classification\":\"ai\",\"confidence\":2,\"explanation\":\"x\"\x7d blah"
      [("classification", Json.str "ai"), ("confidence", Json.num 2), ("explanation", Json.str "x")]
      "ai" (by with_unfolding_all rfl) rfl).2

/-- C7: on a reply that parses to a JSON object, a missing classification
key yields no result; a missing confidence key defaults the confidence to
0.7; a missing explanation key defaults the explanation to the generic
template string. -/
theorem parse_llm_response_defaults (s : String) (kvs : List (String × Json))
    (hj : replyJson s = some (.obj kvs)) :
    (jGet kvs "classification" = none → parse_llm_response s = none)
    ∧ (∀ c, jGet kvs "classification" = some (.str c) → jGet kvs "confidence" = none →
        ∃ r, parse_llm_response s = some r ∧ r.confidence = (7 : ℚ) / 10)
    ∧ (∀ r, parse_llm_response s = some r → jGet kvs "explanation" = none →
        r.explanation = defaultExplanation) := by
  refine ⟨?_, ?_, ?_⟩
  · intro h
    simp only [parse_llm_response, hj, normalizeLLMJson, h]
  · intro c hc hcf
    simp only [parse_llm_response, hj, normalizeLLMJson, hc, hcf, Option.getD_none, pyFloat]
    refine ⟨_, rfl, ?_⟩
    show clamp01 ((7 : ℚ) / 10) = (7 : ℚ) / 10
    norm_num [clamp01, pyMinQ, pyMaxQ]
  · intro r hr he
    simp only [parse_llm_response, hj, normalizeLLMJson] at hr
    cases hc : jGet kvs "classification" with
    | none =>
      rw [hc] at hr
      exact absurd hr (by simp)
    | some cval =>
      rw [hc] at hr
      cases cval <;> try exact Option.noConfusion hr
      case str c =>
        cases hf : pyFloat ((jGet kvs "confidence").getD (.num ((7 : ℚ) / 10))) with
        | none =>
          simp only [hf] at hr
          exact Option.noConfusion hr
        | some q =>
          simp only [hf, Option.some.injEq] at hr
          subst hr
          rw [he]
          show pyTruncate (pyToStr ((none : Option Json).getD (Json.str defaultExplanation))) 240
            = defaultExplanation
          decide

/-- Witness for C7: a reply without the classification key yields no
result; a reply with only a classification gets confidence 0.7 and the
template explanation. -/
theorem parse_llm_response_defaults_witness :
    parse_llm_response "\x7b\"confidence\":1\x7d" = none
    ∧ parse_llm_response "\x7b\"classification\":\"HUMAN\"\x7d"
        = some ⟨"HUMAN", (7 : ℚ) / 10, defaultExplanation⟩ :=
  ⟨(parse_llm_response_defaults "\x7b\"confidence\":1\x7d" [("confidence", Json.num 1)]
      (by with_unfolding_all rfl)).1 rfl,
    by with_unfolding_all rfl⟩

/-- C8 counterexample: on an input with two commas the code decodes only
`split(",")[1]` — the slice between the first and second comma — which
differs from decoding the remainder after the data-URL prefix as the claim
states (base64 decoding discards the extra comma and decodes the rest). -/
theorem decode_base64_not_remainder :
    decode_base64 "a,QUJD,QUJD" = .ok [65, 66, 67]
    ∧ pyB64Decode (specRemainderAfterComma "a,QUJD,QUJD") = .ok [65, 66, 67, 65, 66, 67]
    ∧ decode_base64 "a,QUJD,QUJD"
        ≠ (pyB64Decode (specRemainderAfterComma "a,QUJD,QUJD")).mapError
            (fun e => "Failed to decode base64 audio: " ++ e) := by
  refine ⟨rfl, rfl, ?_⟩
  intro h
  rw [show decode_base64 "a,QUJD,QUJD" = .ok [65, 66, 67] from rfl,
    show pyB64Decode (specRemainderAfterComma "a,QUJD,QUJD")
      = .ok [65, 66, 67, 65, 66, 67] from rfl] at h
  simp [Except.mapError] at h

/-- C8 amended: the decoded payload is `split(",")[1]` when a comma is
present (which equals the remainder after the prefix whenever the input has
at most one comma) and the whole input otherwise; every payload the base64
decoder rejects fails with a ValueError whose message contains "Failed to
decode base64 audio". -/
theorem decode_base64_amended (s : String) :
    decode_base64 s
      = (pyB64Decode (if s.data.contains ',' then splitCommaSecond s else s)).mapError
          (fun e => "Failed to decode base64 audio: " ++ e)
    ∧ (s.data.count ',' ≤ 1 →
        (if s.data.contains ',' then splitCommaSecond s else s) = specRemainderAfterComma s)
    ∧ (∀ e, decode_base64 s = .error e → strHasSub e "Failed to decode base64 audio" = true) := by
  refine ⟨?_, ?_, ?_⟩
  · simp only [decode_base64]
    cases hp : pyB64Decode (if s.data.contains ',' then splitCommaSecond s else s) <;>
      simp [hp, Except.mapError]
  · intro hcount
    by_cases hcon : s.data.contains ',' = true
    · rw [if_pos hcon, specRemainderAfterComma, if_pos hcon, splitCommaSecond]
      have hz := count_after_first_comma s.data hcon hcount
      rw [takeWhile_of_count_comma_zero _ hz]
    · rw [if_neg hcon, specRemainderAfterComma, if_neg hcon]
  · intro e he
    simp only [decode_base64] at he
    cases hp : pyB64Decode (if s.data.contains ',' then splitCommaSecond s else s) with
    | ok bs =>
      simp only [hp] at he
      exact Except.noConfusion he
    | error e0 =>
      simp only [hp, Except.error.injEq] at he
      subst he
      have hsplit : ("Failed to decode base64 audio: " ++ e0)
          = "Failed to decode base64 audio" ++ (": " ++ e0) := by
        cases e0
        rfl
      rw [hsplit]
      exact strHasSub_append_left _ _

/-- Witness for C8 amended: a single-comma data URL's payload matches the
spec's remainder reading, and a bad-padding payload surfaces the marker
message. -/
theorem decode_base64_amended_witness :
    ((if ("a,QUJD").data.contains ',' then splitCommaSecond "a,QUJD" else "a,QUJD")
        = specRemainderAfterComma "a,QUJD")
    ∧ strHasSub "Failed to decode base64 audio: Incorrect padding"
        "Failed to decode base64 audio" = true :=
  ⟨(decode_base64_amended "a,QUJD").2.1 (by decide),
    (decode_base64_amended "QQ=").2.2 "Failed to decode base64 audio: Incorrect padding"
      rfl⟩

/-- C10 counterexample: a reply whose JSON object has a classification key
holding a number (not a string) and an empty-string explanation makes the
parser return `none` (the `.upper()` call raises and is swallowed), not the
non-None result the claim asserts. -/
theorem empty_explanation_nonstring_counterexample :
    replyJson "\x7b\"classification\":5,\"explanation\":\"\"\x7d"
        = some (.obj [("classification", Json.num 5), ("explanation", Json.str "")])
    ∧ parse_llm_response "\x7b\"classification\":5,\"explanation\":\"\"\x7d" = none := by
  constructor
  · with_unfolding_all rfl
  · with_unfolding_all rfl

/-- C10 amended: when the classification value is a string (and the
confidence value, if present, is float-coercible), an empty-string
explanation passes through the parser unchanged (the default applies only
to an absent key), the validator rejects the result for its empty
explanation, and the orchestrator returns the heuristic classification with
confidence exactly 0.55. -/
theorem empty_explanation_fallback (f : FeatureSet) (s : String)
    (kvs : List (String × Json)) (c : String)
    (hj : replyJson s = some (.obj kvs))
    (hc : jGet kvs "classification" = some (.str c))
    (he : jGet kvs "explanation" = some (.str ""))
    (hq : ∀ v, jGet kvs "confidence" = some v → pyFloat v ≠ none) :
    ∃ r, parse_llm_response s = some r ∧ r.explanation = ""
      ∧ validate_result r = false
      ∧ classify f (.replied (some s)) = heuristic_classify f
      ∧ (classify f (.replied (some s))).confidence = (55 : ℚ) / 100 := by
  have hqx : ∃ q, pyFloat ((jGet kvs "confidence").getD (.num ((7 : ℚ) / 10))) = some q := by
    cases hcf : jGet kvs "confidence" with
    | none => exact ⟨(7 : ℚ) / 10, rfl⟩
    | some v =>
      cases hv : pyFloat v with
      | none => exact absurd hv (hq v hcf)
      | some q =>
        refine ⟨q, ?_⟩
        rw [Option.getD_some]
        exact hv
  obtain ⟨q, hfq⟩ := hqx
  have hparse : parse_llm_response s
      = some ⟨normalizeClassification c, clamp01 q, ""⟩ := by
    simp only [parse_llm_response, hj, normalizeLLMJson, hc, he, hfq, Option.getD_some]
    rfl
  have hval : validate_result ⟨normalizeClassification c, clamp01 q, ""⟩ = false := by
    simp [validate_result]
  have hsne : s ≠ "" := by
    intro h0
    rw [h0, show replyJson "" = none from rfl] at hj
    exact Option.noConfusion hj
  have hcls : classify f (.replied (some s)) = heuristic_classify f := by
    simp only [classify, classify_with_llm, beq_eq_false_iff_ne.mpr hsne,
      Bool.false_eq_true, if_false, hparse, hval]
  exact ⟨⟨normalizeClassification c, clamp01 q, ""⟩, hparse, rfl, hval, hcls,
    by rw [hcls, heuristic_confidence_eq]⟩

/-- Witness for C10 amended: a string classification with an empty
explanation reaches the validator, is rejected, and the orchestrator falls
back to the heuristic with confidence 0.55. -/
theorem empty_explanation_fallback_witness :
    ∃ r, parse_llm_response "\x7b\"classification\":\"HUMAN\",\"explanation\":\"\"\x7d" = some r
      ∧ r.explanation = ""
      ∧ validate_result r = false
      ∧ classify ⟨1, 1 / 2, 1 / 2, 1 / 2⟩
          (.replied (some "\x7b\"classification\":\"HUMAN\",\"explanation\":\"\"\x7d"))
          = heuristic_classify ⟨1, 1 / 2, 1 / 2, 1 / 2⟩
      ∧ (classify ⟨1, 1 / 2, 1 / 2, 1 / 2⟩
          (.replied (some "\x7b\"classification\":\"HUMAN\",\"explanation\":\"\"\x7d"))).confidence
          = (55 : ℚ) / 100 :=
  empty_explanation_fallback ⟨1, 1 / 2, 1 / 2, 1 / 2⟩
    "\x7b\"classification\":\"HUMAN\",\"explanation\":\"\"\x7d"
    [("classification", Json.str "HUMAN"), ("explanation", Json.str "")] "HUMAN"
    (by with_unfolding_all rfl) rfl rfl (fun v h => Option.noConfusion h)

end EchoTruth
